import Mathlib

/-!
Verification of the architecture graph-model core of `caret_analyze`
(`src/caret_analyze/architecture/architecture.py`).

The embedding models Python strings as `String`, Python lists/tuples as
`List`, Python `None`-able values as `Option`, and methods that may raise
as `Except`-valued functions.  In-place mutating methods of `Architecture`
are embedded as functions `Architecture → Except (Err × Architecture)
Architecture`: the error case carries the state the object is left in at
the moment the exception propagates (the checked-before-mutated methods
leave the input state untouched; `update_path` can leave the state after
its `remove` step when the following `add` step fails, exactly as the
Python object would).

Python compares strings lexicographically by Unicode code point; the
order `strLe` below is exactly that order on `String.data` (the built-in
`String` order of Lean is the same order, but its `Decidable` instance
does not reduce in the kernel, so a structurally recursive equivalent is
used to keep every definition evaluable by `decide`).
-/

/-- Code-point-lexicographic comparison of character lists, the order
Python's `sorted` uses on strings. -/
def charsLe : List Char → List Char → Bool
  | [], _ => true
  | _ :: _, [] => false
  | a :: as, b :: bs =>
    if a.toNat < b.toNat then true
    else if b.toNat < a.toNat then false
    else charsLe as bs

/-- `strLe a b` : string `a` sorts no later than `b` (code-point order). -/
def strLe (a b : String) : Prop := charsLe a.data b.data = true

instance : DecidableRel strLe := fun a b =>
  inferInstanceAs (Decidable (charsLe a.data b.data = true))

instance : IsTotal String strLe where
  total a b := by
    show charsLe a.data b.data = true ∨ charsLe b.data a.data = true
    generalize a.data = as
    generalize b.data = bs
    induction as generalizing bs with
    | nil => left; rfl
    | cons x xs ih =>
      cases bs with
      | nil => right; rfl
      | cons y ys =>
        simp only [charsLe]
        rcases Nat.lt_trichotomy x.toNat y.toNat with h | h | h
        · left; simp [h]
        · have h1 : ¬ x.toNat < y.toNat := by omega
          have h2 : ¬ y.toNat < x.toNat := by omega
          rcases ih ys with h3 | h3
          · left; simp [h1, h2, h3]
          · right; simp [h1, h2, h3]
        · right; simp [h]

instance : IsTrans String strLe where
  trans a b c h1 h2 := by
    change charsLe a.data b.data = true at h1
    change charsLe b.data c.data = true at h2
    show charsLe a.data c.data = true
    generalize a.data = as at h1 ⊢
    generalize b.data = bs at h1 h2
    generalize c.data = cs at h2 ⊢
    induction as generalizing bs cs with
    | nil => rfl
    | cons x xs ih =>
      cases bs with
      | nil => simp [charsLe] at h1
      | cons y ys =>
        cases cs with
        | nil => simp [charsLe] at h2
        | cons z zs =>
          simp only [charsLe] at h1 h2 ⊢
          by_cases hab : x.toNat < y.toNat
          · by_cases hbc : y.toNat < z.toNat
            · have hac : x.toNat < z.toNat := by omega
              rw [if_pos hac]
            · rw [if_neg hbc] at h2
              by_cases hcb : z.toNat < y.toNat
              · rw [if_pos hcb] at h2; exact absurd h2 (by simp)
              · have hac : x.toNat < z.toNat := by omega
                rw [if_pos hac]
          · rw [if_neg hab] at h1
            by_cases hba : y.toNat < x.toNat
            · rw [if_pos hba] at h1; exact absurd h1 (by simp)
            · rw [if_neg hba] at h1
              by_cases hbc : y.toNat < z.toNat
              · have hac : x.toNat < z.toNat := by omega
                rw [if_pos hac]
              · rw [if_neg hbc] at h2
                by_cases hcb : z.toNat < y.toNat
                · rw [if_pos hcb] at h2; exact absurd h2 (by simp)
                · rw [if_neg hcb] at h2
                  have h3 : ¬ x.toNat < z.toNat := by omega
                  have h4 : ¬ z.toNat < x.toNat := by omega
                  rw [if_neg h3, if_neg h4]
                  exact ih ys h1 zs h2

/-- Python's `sorted` on a list of strings. -/
def sortStr (xs : List String) : List String := List.insertionSort strLe xs

/-- Error kinds of the design (spec §7).  The Python code raises
`ItemNotFoundError` / `InvalidArgumentError('... not exist')` for what the
spec calls `NotFound`, `MultipleItemFoundError` for `AmbiguousMatch`,
`InvalidArgumentError('Duplicate path name')` for `DuplicateName`,
`UnsupportedTypeError` for `UnsupportedElement`, and
`InvalidArgumentError('path_info.path_name is None')` for `InvalidInput`;
the embedding uses the spec-level kinds, mapped per raise site. -/
inductive Err where
  | notFound
  | ambiguousMatch
  | duplicateName
  | unsupportedElement
  | invalidInput
deriving DecidableEq

/-- `PublisherStructValue`: topic name and construction order (fields the
claims use). -/
structure PublisherStruct where
  topic_name : String
  construction_order : Nat
deriving DecidableEq

/-- `SubscriptionStructValue`: topic name and construction order. -/
structure SubscriptionStruct where
  topic_name : String
  construction_order : Nat
deriving DecidableEq

/-- The plain key/value record form of a message context
(`MessageContext.to_dict()`; the `to_dict` itself lives in the struct
module, outside `src/`, so the record is modelled directly: the
construction-order entries may be absent, which `ContextUpdater` reads
with a `.get(..., 0)` default). -/
structure MessageContextDict where
  context_type : String
  subscription_topic_name : String
  publisher_topic_name : String
  subscription_construction_order : Option Nat
  publisher_construction_order : Option Nat
deriving DecidableEq

/-- `NodePathStruct`: an intra-node edge; either topic side may be absent
(boundary-open paths), and the message context is optional. -/
structure NodePathStruct where
  subscribe_topic_name : Option String
  publish_topic_name : Option String
  subscription_construction_order : Option Nat
  publisher_construction_order : Option Nat
  message_context : Option MessageContextDict
deriving DecidableEq

/-- `CommunicationStruct`: the cross-node edge (the five fields
`Architecture.get_communication` and `add_path` match on). -/
structure CommunicationStruct where
  publish_node_name : String
  subscribe_node_name : String
  topic_name : String
  publisher_construction_order : Nat
  subscription_construction_order : Nat
deriving DecidableEq

/-- The type-specific callback parameter (`cb_param: str | int` in
`Architecture._verify`). -/
inductive CbParam where
  | ofNat (n : Nat)
  | ofStr (s : String)
deriving DecidableEq

/-- `CallbackStruct`: tagged variant (timer / subscription / service),
with symbol and construction order. -/
inductive CallbackStruct where
  | timer (period_ns : Nat) (symbol : String) (construction_order : Nat)
  | subscription (subscribe_topic_name : String) (symbol : String) (construction_order : Nat)
  | service (service_name : String) (symbol : String) (construction_order : Nat)
deriving DecidableEq

/-- `CallbackGroupStructValue`: a named group owning callbacks. -/
structure CallbackGroupStruct where
  callback_group_name : String
  callbacks : List CallbackStruct
deriving DecidableEq

/-- `NodeStruct`: a node with its owned collections (the fields the
claims exercise).  `callbacks` and `callback_groups` are optional
exactly as the Python attributes can be `None`. -/
structure NodeStruct where
  node_name : String
  publishers : List PublisherStruct
  subscriptions : List SubscriptionStruct
  paths : List NodePathStruct
  callbacks : Option (List CallbackStruct)
  callback_groups : Option (List CallbackGroupStruct)
deriving DecidableEq

/-- `ExecutorStruct` (only its name is relevant to the claims; its
callback-group references live in the struct module, outside `src/`). -/
structure ExecutorStruct where
  executor_name : String
deriving DecidableEq

/-- A child element of a stored named `PathStruct`: a node-local segment
or a cross-node edge. -/
inductive PathChild where
  | nodePath (np : NodePathStruct)
  | comm (c : CommunicationStruct)
deriving DecidableEq

/-- `PathStruct`: a stored (named) path. -/
structure PathStruct where
  path_name : Option String
  child : List PathChild
deriving DecidableEq

/-- `NodePathStructValue` as consumed by `add_path`: carries the owning
node's name plus the four matching fields. -/
structure NodePathStructValue where
  node_name : String
  subscribe_topic_name : Option String
  publish_topic_name : Option String
  subscription_construction_order : Option Nat
  publisher_construction_order : Option Nat
deriving DecidableEq

/-- A child element of a `PathStructValue` handed to `add_path`:
`isinstance` dispatch on `NodePathStructValue` / `CommunicationStructValue`;
any other object falls into the `else: raise UnsupportedTypeError` arm,
modelled by the `unsupported` variant. -/
inductive PathChildValue where
  | nodePath (np : NodePathStructValue)
  | comm (c : CommunicationStruct)
  | unsupported
deriving DecidableEq

/-- `PathStructValue`: the caller-facing path value. -/
structure PathStructValue where
  path_name : Option String
  child : List PathChildValue
deriving DecidableEq

/-- The `Architecture` aggregate state: the four owned collections plus
the construction-order search limit fixed at construction. -/
structure Architecture where
  nodes : List NodeStruct
  communications : List CommunicationStruct
  executors : List ExecutorStruct
  paths : List PathStruct
  max_cb_order : Nat
deriving DecidableEq

/-- Modelled from the spec: `Util.find_one` (the `common` module, outside
`src/`) is the generic "find the one matching element" utility of §9 —
zero matches raise `ItemNotFoundError` (`NotFound`), two or more raise
`MultipleItemFoundError` (`AmbiguousMatch`). -/
def find_one {α : Type} (p : α → Bool) (xs : List α) : Except Err α :=
  match xs.filter p with
  | [] => .error .notFound
  | [x] => .ok x
  | _ => .error .ambiguousMatch

/-- Modelled from the spec: `Util.find_similar_one` (the `common` module,
outside `src/`) looks the target up by exact key match first and only
then attempts a best-effort nearest-name match before failing `NotFound`
(§4.1).  The embedding covers the exact-match branch and abstracts the
nearest-name fallback as `NotFound`; no claim exercises the fallback. -/
def find_similar_one {α : Type} (name : String) (xs : List α) (key : α → Option String) :
    Except Err α :=
  match xs.filter (fun x => decide (key x = some name)) with
  | [] => .error .notFound
  | [x] => .ok x
  | _ => .error .ambiguousMatch

/-- `node.publish_topic_names` (derived from the owned publishers). -/
def NodeStruct.publish_topic_names (n : NodeStruct) : List String :=
  n.publishers.map (·.topic_name)

/-- `node.subscribe_topic_names` (derived from the owned subscriptions). -/
def NodeStruct.subscribe_topic_names (n : NodeStruct) : List String :=
  n.subscriptions.map (·.topic_name)

/-- `Architecture.node_names`: `tuple(sorted(_.node_name for _ in self._nodes))`. -/
def Architecture.node_names (a : Architecture) : List String :=
  sortStr (a.nodes.map (·.node_name))

/-- The raw (unsorted) stored path names:
`(v.path_name for v in self._paths if v.path_name is not None)`. -/
def Architecture.path_name_list (a : Architecture) : List String :=
  a.paths.filterMap (·.path_name)

/-- `Architecture.path_names`: the sorted tuple of stored path names. -/
def Architecture.path_names (a : Architecture) : List String :=
  sortStr a.path_name_list

/-- `Architecture.executor_names`: sorted executor names. -/
def Architecture.executor_names (a : Architecture) : List String :=
  sortStr (a.executors.map (·.executor_name))

/-- `Architecture.topic_names`: `sorted` of the set union of all nodes'
publish topic names and subscribe topic names (Python builds a `set`,
so duplicates collapse; `sorted` then fixes the order). -/
def Architecture.topic_names (a : Architecture) : List String :=
  sortStr (((a.nodes.map NodeStruct.publish_topic_names).flatten ++
            (a.nodes.map NodeStruct.subscribe_topic_names).flatten).dedup)

/-- The result type of an in-place mutating method: on success the new
state, on failure the raised error kind together with the state the
object is left in when the exception propagates. -/
abbrev MutResult := Except (Err × Architecture) Architecture

instance {ε α : Type} [DecidableEq ε] [DecidableEq α] : DecidableEq (Except ε α) := fun x y =>
  match x, y with
  | .error e1, .error e2 =>
    if h : e1 = e2 then isTrue (congrArg Except.error h)
    else isFalse (fun hc => h (Except.error.inj hc))
  | .error _, .ok _ => isFalse (fun hc => Except.noConfusion hc)
  | .ok _, .error _ => isFalse (fun hc => Except.noConfusion hc)
  | .ok a1, .ok a2 =>
    if h : a1 = a2 then isTrue (congrArg Except.ok h)
    else isFalse (fun hc => h (Except.ok.inj hc))

/-- Child resolution inside `Architecture.add_path`: a `NodePathStructValue`
is matched to an owned `NodePathStruct` (node by name, then node path by
the publish/subscribe topic + construction-order quadruple), a
`CommunicationStructValue` to an owned `CommunicationStruct` (all five
fields); any other child raises `UnsupportedTypeError`. -/
def Architecture.resolve_child (a : Architecture) : PathChildValue → Except Err PathChild
  | .nodePath c =>
    match find_one (fun n => decide (n.node_name = c.node_name)) a.nodes with
    | .error e => .error e
    | .ok node =>
      match find_one (fun np => decide
          (np.publish_topic_name = c.publish_topic_name ∧
           np.subscribe_topic_name = c.subscribe_topic_name ∧
           np.publisher_construction_order = c.publisher_construction_order ∧
           np.subscription_construction_order = c.subscription_construction_order))
          node.paths with
      | .error e => .error e
      | .ok np => .ok (.nodePath np)
  | .comm c =>
    match find_one (fun m => decide
        (m.publish_node_name = c.publish_node_name ∧
         m.subscribe_node_name = c.subscribe_node_name ∧
         m.topic_name = c.topic_name ∧
         m.publisher_construction_order = c.publisher_construction_order ∧
         m.subscription_construction_order = c.subscription_construction_order))
        a.communications with
    | .error e => .error e
    | .ok m => .ok (.comm m)
  | .unsupported => .error .unsupportedElement

/-- The `for c in path_info.child` loop of `add_path`: children are
resolved into a local list before anything is stored, so a resolution
failure mutates nothing. -/
def Architecture.resolve_children (a : Architecture) :
    List PathChildValue → Except Err (List PathChild)
  | [] => .ok []
  | c :: rest =>
    match a.resolve_child c with
    | .error e => .error e
    | .ok x =>
      match a.resolve_children rest with
      | .error e => .error e
      | .ok xs => .ok (x :: xs)

/-- `Architecture.add_path`: duplicate-name check first
(`if path_name in self.path_names: raise InvalidArgumentError('...Duplicate
path name.')`), then child resolution, then a single append of the new
named `PathStruct`. -/
def Architecture.add_path (a : Architecture) (path_name : String)
    (path_info : PathStructValue) : MutResult :=
  if path_name ∈ a.path_names then .error (.duplicateName, a)
  else
    match a.resolve_children path_info.child with
    | .error e => .error (e, a)
    | .ok child => .ok { a with paths := a.paths ++ [⟨some path_name, child⟩] }

/-- The index loop of `remove_path`: it walks the whole list recording
the index of every match, so the index it pops is that of the LAST
stored path with the given name. -/
def removeLastNamed (ps : List PathStruct) (name : String) : List PathStruct :=
  (ps.reverse.eraseP (fun p => decide (p.path_name = some name))).reverse

/-- `Architecture.remove_path`: absence check first
(`if path_name not in self.path_names: raise InvalidArgumentError('...not
exist.')` — the spec's `NotFound`), then pop of the last matching index. -/
def Architecture.remove_path (a : Architecture) (path_name : String) : MutResult :=
  if path_name ∈ a.path_names then
    .ok { a with paths := removeLastNamed a.paths path_name }
  else .error (.notFound, a)

/-- `Architecture.update_path`: `InvalidArgumentError` when the new path
value carries no name; otherwise `remove_path(path.path_name)` — the NEW
path's own name, not the `path_name` argument — followed by
`add_path(path_name, path)`.  When the add step fails the remove step has
already mutated the object, which the error state records. -/
def Architecture.update_path (a : Architecture) (path_name : String)
    (path : PathStructValue) : MutResult :=
  match path.path_name with
  | none => .error (.invalidInput, a)
  | some own =>
    match a.remove_path own with
    | .error e => .error e
    | .ok a1 => a1.add_path path_name path

/-- `Architecture.rename_path`: look the path up with `find_similar_one`
on `path_name` and overwrite its name with `dst` — no check that `dst` is
unused.  The in-place write to the found object is embedded as a map
guarded by the (unique, by the lookup's success) old name. -/
def Architecture.rename_path (a : Architecture) (src dst : String) : MutResult :=
  match find_similar_one src a.paths (fun p => p.path_name) with
  | .error e => .error (e, a)
  | .ok _ =>
    .ok { a with paths := a.paths.map fun p =>
            if p.path_name = some src then { p with path_name := some dst } else p }

/-- `Architecture.rename_executor`: `find_similar_one` on `executor_name`,
then overwrite with `dst` — again no duplicate check. -/
def Architecture.rename_executor (a : Architecture) (src dst : String) : MutResult :=
  match find_similar_one src a.executors (fun e => some e.executor_name) with
  | .error e => .error (e, a)
  | .ok _ =>
    .ok { a with executors := a.executors.map fun e =>
            if e.executor_name = src then { e with executor_name := dst } else e }

/-- Modelled from the spec: `NodeStruct.rename_node` (struct module,
outside `src/`) updates the canonical node name when it matches `src`
(§4.1: "update the canonical name and propagate to every entity holding a
reference to the old name"). -/
def NodeStruct.rename_node (n : NodeStruct) (src dst : String) : NodeStruct :=
  if n.node_name = src then { n with node_name := dst } else n

/-- Modelled from the spec: `CommunicationStruct.rename_node` (struct
module, outside `src/`) rewrites the publisher/subscriber node-name
references matching `src`. -/
def CommunicationStruct.rename_node (c : CommunicationStruct) (src dst : String) :
    CommunicationStruct :=
  { c with
    publish_node_name := if c.publish_node_name = src then dst else c.publish_node_name,
    subscribe_node_name := if c.subscribe_node_name = src then dst else c.subscribe_node_name }

/-- `Architecture.rename_node`: renames `src` to `dst` in every node and
every communication (the executor-side propagation touches only
executor-internal references, which are outside this model).  There is no
check that `dst` is not already a node name. -/
def Architecture.rename_node (a : Architecture) (src dst : String) : MutResult :=
  .ok { a with
        nodes := a.nodes.map (NodeStruct.rename_node · src dst),
        communications := a.communications.map (CommunicationStruct.rename_node · src dst) }

/-- One step of the named-path CRUD surface (the mutations of the
uniqueness claim that act on the path collection). -/
inductive PathMutation where
  | add (name : String) (p : PathStructValue)
  | remove (name : String)
  | update (name : String) (p : PathStructValue)

/-- Dispatch one path mutation. -/
def Architecture.apply_path_mutation (a : Architecture) : PathMutation → MutResult
  | .add name p => a.add_path name p
  | .remove name => a.remove_path name
  | .update name p => a.update_path name p

/-- The state the caller's object is in after invoking one mutation:
on an exception the object keeps whatever state the method left it in. -/
def Architecture.run_path_mutation (a : Architecture) (m : PathMutation) : Architecture :=
  match a.apply_path_mutation m with
  | .ok r => r
  | .error (_, r) => r

/-- A sequence of path mutations, applied left to right. -/
def Architecture.run_path_mutations (a : Architecture) : List PathMutation → Architecture
  | [] => a
  | m :: ms => (a.run_path_mutation m).run_path_mutations ms


/-- `Architecture.search_paths`: every waypoint name is checked against
`node_names` first (`raise ItemNotFoundError` on the first unknown one),
so an unknown waypoint fails before the `NodePathSearcher` is even
constructed; then `max_node_depth = max_node_depth or default_depth`
replaces the falsy values `None` and `0` by the default depth 15, and the
search is delegated.  The `NodePathSearcher` itself lives in the
`graph_search` module, outside `src/`, and is abstracted as the function
argument `searcher`, already bound (as the source's constructor call
binds them) to the node/communication snapshots, the construction-order
limit, and the two filters, so that only the depth bound remains free.
The pre/post-search `print` advisories are observability side effects
with no control flow and are not modelled; the method reads but never
writes the architecture state. -/
def Architecture.search_paths (a : Architecture) (searcher : Nat → List PathStruct)
    (node_names : List String) (max_node_depth : Option Nat) :
    Except Err (List PathStruct) :=
  if node_names.all (fun n => decide (n ∈ a.node_names)) then
    let default_depth := 15
    let depth := match max_node_depth with
      | none => default_depth
      | some d => if d = 0 then default_depth else d
    .ok (searcher depth)
  else .error .notFound

/-- `DiffArchitecture.diff_topic_names` (and the static
`Architecture.diff_topic_names` delegating to it): with
`common = set(left) & set(right)`, returns
`(set(left) - common, set(right) - common)`.  Python's set-iteration
order is unspecified; the embedding keeps each side's `topic_names`
order, and the theorems about the result are stated at set level
(membership), exactly the level at which the source's output is
determined. -/
def Architecture.diff_topic_names (left_arch right_arch : Architecture) :
    List String × List String :=
  let sl := left_arch.topic_names
  let sr := right_arch.topic_names
  (sl.filter (fun t => decide (t ∉ sr)), sr.filter (fun t => decide (t ∉ sl)))

/-- The `ContextUpdater` working state: the scoped node and the working
copy of its message contexts as plain records, seeded in `__init__` from
the node's current paths' contexts (`to_dict` of each non-`None`
`path.message_context`). -/
structure ContextUpdater where
  node : NodeStruct
  contexts : List MessageContextDict
deriving DecidableEq

/-- `ContextUpdater.__init__`. -/
def ContextUpdater.init (node : NodeStruct) : ContextUpdater :=
  ⟨node, node.paths.filterMap (·.message_context)⟩

/-- `ContextUpdater.update_message_context`: first pass overwrites
`context_type` in place on every working record whose
(subscription topic, publisher topic) pair matches; second pass walks the
node's paths, skips those that already carry a context ("already
processed by the above self._contexts process"), and appends a fresh
record (inheriting the path's construction orders) for each remaining
path whose topic pair matches.  A path with a `None` topic side never
matches a string pair. -/
def ContextUpdater.update_message_context (cu : ContextUpdater) (context_type : String)
    (subscribe_topic_name : String) (publish_topic_name : String) : ContextUpdater :=
  let updated := cu.contexts.map fun c =>
    if c.subscription_topic_name = subscribe_topic_name ∧
       c.publisher_topic_name = publish_topic_name then
      { c with context_type := context_type }
    else c
  let appended := (cu.node.paths.filter fun p => decide
      (p.message_context = none ∧
       p.subscribe_topic_name = some subscribe_topic_name ∧
       p.publish_topic_name = some publish_topic_name)).map fun p =>
    { context_type := context_type,
      subscription_topic_name := subscribe_topic_name,
      publisher_topic_name := publish_topic_name,
      subscription_construction_order := p.subscription_construction_order,
      publisher_construction_order := p.publisher_construction_order }
  { cu with contexts := updated ++ appended }

/-- The full record key `ContextUpdater.remove_callback_chain` compares,
with the source's `.get(..., 0)` default for absent construction-order
entries. -/
def contextFullKey (c : MessageContextDict) : String × Nat × String × Nat × String :=
  (c.subscription_topic_name, c.subscription_construction_order.getD 0,
   c.publisher_topic_name, c.publisher_construction_order.getD 0, c.context_type)

/-- `ContextUpdater.remove_callback_chain`: keep exactly the working
records whose full key differs from
(sub topic, sub order, pub topic, pub order, `'callback_chain'`). -/
def ContextUpdater.remove_callback_chain (cu : ContextUpdater)
    (subscribe_topic_name : String) (subscription_construction_order : Nat)
    (publish_topic_name : String) (publisher_construction_order : Nat) : ContextUpdater :=
  { cu with contexts := cu.contexts.filter (fun c => decide
      (contextFullKey c ≠ (subscribe_topic_name, subscription_construction_order,
                           publish_topic_name, publisher_construction_order,
                           "callback_chain"))) }

/-- `ContextUpdater.get_message_contexts`. -/
def ContextUpdater.get_message_contexts (cu : ContextUpdater) : List MessageContextDict :=
  cu.contexts

/-- Modelled from the spec: `node.update_node_path(...)` (struct module,
outside `src/`) atomically replaces the node's path set with the new one
(spec §3: "recomputation of a node's local paths is atomic — the new set
fully replaces the old"); at the aggregate level the uniquely-found
node's paths are replaced in place. -/
def Architecture.update_node_path (a : Architecture) (node_name : String)
    (new_paths : List NodePathStruct) : Architecture :=
  { a with nodes := a.nodes.map fun n =>
      if n.node_name = node_name then { n with paths := new_paths } else n }

/-- `Architecture.update_message_context`: locate the node
(`Util.find_one` on the name), then raise `ItemNotFoundError` unless the
publish topic is among the node's publish topic names and the subscribe
topic among its subscribe topic names; then run the `ContextUpdater` and
atomically replace the node's paths with the output of
`NodeValuesLoaded._search_node_paths(node, contexts, limit)`.  That
path-derivation primitive lives in `architecture_loaded`, outside `src/`;
per the spec (§4.1) it is a function of the node, its current message
contexts and the construction-order limit, abstracted here as the
argument `search_node_paths`. -/
def Architecture.update_message_context
    (search_node_paths : NodeStruct → List MessageContextDict → Nat → List NodePathStruct)
    (a : Architecture) (node_name : String) (context_type : String)
    (subscribe_topic_name : String) (publish_topic_name : String) : MutResult :=
  match find_one (fun n => decide (n.node_name = node_name)) a.nodes with
  | .error e => .error (e, a)
  | .ok node =>
    if publish_topic_name ∈ node.publish_topic_names then
      if subscribe_topic_name ∈ node.subscribe_topic_names then
        let cu := (ContextUpdater.init node).update_message_context
          context_type subscribe_topic_name publish_topic_name
        let new_paths := search_node_paths node cu.get_message_contexts a.max_cb_order
        .ok (a.update_node_path node_name new_paths)
      else .error (.notFound, a)
    else .error (.notFound, a)

/-- `callback.callback_type_name`.  The concrete strings live in
`value_objects`, outside `src/`; for `_verify` only their being distinct
per variant matters. -/
def CallbackStruct.callback_type_name : CallbackStruct → String
  | .timer _ _ _ => "timer_callback"
  | .subscription _ _ _ => "subscription_callback"
  | .service _ _ _ => "service_callback"

/-- `callback.symbol`. -/
def CallbackStruct.symbol : CallbackStruct → String
  | .timer _ s _ => s
  | .subscription _ s _ => s
  | .service _ s _ => s

/-- `callback.construction_order`. -/
def CallbackStruct.construction_order : CallbackStruct → Nat
  | .timer _ _ o => o
  | .subscription _ _ o => o
  | .service _ _ o => o

/-- The type-specific parameter `cb_param` of `_verify`'s `isinstance`
dispatch: period for timers, subscribe topic for subscriptions, service
name for services. -/
def CallbackStruct.callback_param : CallbackStruct → CbParam
  | .timer p _ _ => .ofNat p
  | .subscription t _ _ => .ofStr t
  | .service s _ _ => .ofStr s

/-- The identity key `_verify` counts:
(type, type-specific parameter, symbol, construction order). -/
def callbackIdentityKey (c : CallbackStruct) : String × CbParam × String × Nat :=
  (c.callback_type_name, c.callback_param, c.symbol, c.construction_order)

/-- One warning record `_verify` logs ('Duplicate parameter callback
found': node name, callback type, parameter).  Logging is modelled as
returned diagnostic data. -/
structure VerifyWarning where
  node_name : String
  callback_type : String
  callback_param : CbParam
deriving DecidableEq

/-- The per-node part of `_verify`: skip a node whose `callbacks` is
`None`; otherwise count identity keys (`Counter(callback_params)`) and
emit one warning per key held by two or more callbacks.  The embedding
enumerates each distinct key once via `dedup` (the `Counter` iteration
order differs, but no claim depends on warning order). -/
def NodeStruct.verify_warnings (node : NodeStruct) : List VerifyWarning :=
  match node.callbacks with
  | none => []
  | some cbs =>
    let ks := cbs.map callbackIdentityKey
    (ks.dedup.filter fun k => decide (2 ≤ ks.count k)).map fun k =>
      ⟨node.node_name, k.1, k.2.1⟩

/-- `Architecture._verify`: pure integrity check over the node
collection; its only effect is the logged warnings — it has no raise
statement at all, so the `Except` embedding has no error branch. -/
def verify (nodes : List NodeStruct) : Except Err (List VerifyWarning) :=
  .ok ((nodes.map NodeStruct.verify_warnings).flatten)

/-- `Architecture.__init__` after the external Reader/Loader have
produced the four collections (the loading itself is outside `src/`):
store the collections and the limit, then run `_verify`. -/
def Architecture.construct (nodes : List NodeStruct)
    (communications : List CommunicationStruct) (executors : List ExecutorStruct)
    (paths : List PathStruct) (max_cb_order : Nat) : Except Err Architecture :=
  match verify nodes with
  | .error e => .error e
  | .ok _ => .ok ⟨nodes, communications, executors, paths, max_cb_order⟩

/-- `Architecture.callback_groups`: concatenation of every node's
non-`None` `callback_groups`. -/
def Architecture.callback_groups (a : Architecture) : List CallbackGroupStruct :=
  (a.nodes.map fun n => n.callback_groups.getD []).flatten

/-- `Architecture.callbacks`: flatten of the groups' callbacks — no
deduplication anywhere, so callbacks sharing an identity key all stay
visible. -/
def Architecture.callbacks (a : Architecture) : List CallbackStruct :=
  (a.callback_groups.map (·.callbacks)).flatten

/-- The state a mutating call leaves the caller's object in, whether the
call returned normally or raised. -/
def MutResult.state : MutResult → Architecture
  | .ok b => b
  | .error (_, b) => b

/-- A node with only a name (concrete input material for the theorems
below). -/
def nodeNamed (s : String) : NodeStruct := ⟨s, [], [], [], none, none⟩

/-- Concrete state: no nodes, two stored paths named `a` and `b`. -/
def archPathsAB : Architecture := ⟨[], [], [], [⟨some "a", []⟩, ⟨some "b", []⟩], 10⟩

/-- Concrete state: one stored path named `old`. -/
def archPathOld : Architecture := ⟨[], [], [], [⟨some "old", []⟩], 10⟩

/-- Concrete path value whose own name is `old`, with no children. -/
def pvOld : PathStructValue := ⟨some "old", []⟩

/-- Concrete state: two nodes named `a` and `b`. -/
def archNodesAB : Architecture := ⟨[nodeNamed "a", nodeNamed "b"], [], [], [], 10⟩

/-- Concrete state: one node named `n`. -/
def archOneNode : Architecture := ⟨[nodeNamed "n"], [], [], [], 10⟩

/-- Concrete node publishing `p`, subscribing to nothing, with no paths. -/
def nodePubOnly : NodeStruct := ⟨"n", [⟨"p", 0⟩], [], [], none, none⟩

/-- Concrete state holding only `nodePubOnly`. -/
def archPubOnly : Architecture := ⟨[nodePubOnly], [], [], [], 10⟩

/-- Concrete node publishing `p` and subscribing to `s`, with no paths
(so no context and no node path carry the pair `(s, p)`). -/
def nodePubSub : NodeStruct := ⟨"m", [⟨"p", 0⟩], [⟨"s", 0⟩], [], none, none⟩

/-- Concrete state holding only `nodePubSub`. -/
def archPubSub : Architecture := ⟨[nodePubSub], [], [], [], 10⟩

/-- Concrete `callback_chain` context record on the topic pair `(s, p)`. -/
def ctxChain : MessageContextDict := ⟨"callback_chain", "s", "p", some 0, some 0⟩

/-- Concrete context record of a different context type on the same
topic pair. -/
def ctxOther : MessageContextDict := ⟨"inherit_unique_stamp", "s", "p", some 0, some 0⟩

/-- Concrete `ContextUpdater` working state holding both records. -/
def cuBoth : ContextUpdater := ⟨nodeNamed "n", [ctxChain, ctxOther]⟩

/-- Concrete timer callback. -/
def timerCb : CallbackStruct := .timer 100 "sym" 0

/-- Concrete node owning two timer callbacks with identical period,
symbol and construction order (the spec's §8 scenario). -/
def nodeDupTimers : NodeStruct :=
  ⟨"dup", [], [], [], some [timerCb, timerCb], some [⟨"cbg", [timerCb, timerCb]⟩]⟩

/-- The path-CRUD invariant preserved across mutations: nodes,
executors and communications untouched, stored-path-name distinctness
preserved. -/
def PathInv (a b : Architecture) : Prop :=
  b.nodes = a.nodes ∧ b.executors = a.executors ∧ b.communications = a.communications ∧
  (a.path_name_list.Nodup → b.path_name_list.Nodup)

theorem sortStr_sorted (xs : List String) : (sortStr xs).Sorted strLe :=
  List.sorted_insertionSort strLe xs

theorem sortStr_perm (xs : List String) : List.Perm (sortStr xs) xs :=
  List.perm_insertionSort strLe xs

theorem sortStr_mem (xs : List String) (x : String) : x ∈ sortStr xs ↔ x ∈ xs :=
  (sortStr_perm xs).mem_iff

theorem sortStr_nodup_iff (xs : List String) : (sortStr xs).Nodup ↔ xs.Nodup :=
  (sortStr_perm xs).nodup_iff

theorem path_names_mem (a : Architecture) (x : String) :
    x ∈ a.path_names ↔ x ∈ a.path_name_list := sortStr_mem _ _

theorem path_names_nodup_iff (a : Architecture) :
    a.path_names.Nodup ↔ a.path_name_list.Nodup := sortStr_nodup_iff _

theorem pathInv_rfl (a : Architecture) : PathInv a a := ⟨rfl, rfl, rfl, id⟩

theorem pathInv_comp {a b c : Architecture} (h1 : PathInv a b) (h2 : PathInv b c) :
    PathInv a c :=
  ⟨h2.1.trans h1.1, h2.2.1.trans h1.2.1, h2.2.2.1.trans h1.2.2.1,
   fun h => h2.2.2.2 (h1.2.2.2 h)⟩

theorem add_path_inv (a : Architecture) (n : String) (p : PathStructValue) :
    PathInv a (a.add_path n p).state := by
  unfold Architecture.add_path
  by_cases h : n ∈ a.path_names
  · rw [if_pos h]; exact pathInv_rfl a
  · rw [if_neg h]
    cases hres : a.resolve_children p.child with
    | error e => exact pathInv_rfl a
    | ok child =>
      refine ⟨rfl, rfl, rfl, fun hd => ?_⟩
      have hn : n ∉ a.path_name_list := fun hm => h ((path_names_mem a n).mpr hm)
      simp only [MutResult.state, Architecture.path_name_list, List.filterMap_append]
      rw [List.nodup_append_comm]
      have hn2 : ∀ x ∈ a.paths, ¬ x.path_name = some n := by
        intro x hx he
        apply hn
        simp only [Architecture.path_name_list, List.mem_filterMap]
        exact ⟨x, hx, he⟩
      simpa [Architecture.path_name_list, List.nodup_cons] using ⟨hn2, hd⟩

theorem removeLastNamed_sublist (ps : List PathStruct) (nm : String) :
    List.Sublist (removeLastNamed ps nm) ps := by
  unfold removeLastNamed
  have h1 : List.Sublist
      (ps.reverse.eraseP (fun p => decide (p.path_name = some nm))) ps.reverse :=
    List.eraseP_sublist ps.reverse
  simpa using h1.reverse

theorem remove_path_inv (a : Architecture) (n : String) :
    PathInv a (a.remove_path n).state := by
  unfold Architecture.remove_path
  by_cases h : n ∈ a.path_names
  · rw [if_pos h]
    refine ⟨rfl, rfl, rfl, fun hd => ?_⟩
    exact List.Nodup.sublist ((removeLastNamed_sublist a.paths n).filterMap _) hd
  · rw [if_neg h]; exact pathInv_rfl a

theorem update_path_eq_none (a : Architecture) (n : String) (p : PathStructValue)
    (h : p.path_name = none) : a.update_path n p = .error (.invalidInput, a) := by
  unfold Architecture.update_path
  rw [h]

theorem update_path_eq_some (a : Architecture) (n : String) (p : PathStructValue)
    (own : String) (h : p.path_name = some own) :
    a.update_path n p = (match a.remove_path own with
      | .error e => .error e
      | .ok a1 => a1.add_path n p) := by
  unfold Architecture.update_path
  rw [h]

theorem update_path_inv (a : Architecture) (n : String) (p : PathStructValue) :
    PathInv a (a.update_path n p).state := by
  cases hpn : p.path_name with
  | none =>
    rw [update_path_eq_none a n p hpn]
    exact pathInv_rfl a
  | some own =>
    rw [update_path_eq_some a n p own hpn]
    cases hrm : a.remove_path own with
    | error e =>
      have h1 := remove_path_inv a own
      rw [hrm] at h1
      exact h1
    | ok a1 =>
      have h1 := remove_path_inv a own
      rw [hrm] at h1
      exact pathInv_comp h1 (add_path_inv a1 n p)

theorem run_path_mutation_eq_state (a : Architecture) (m : PathMutation) :
    a.run_path_mutation m = (a.apply_path_mutation m).state := by
  cases h : a.apply_path_mutation m with
  | ok b => simp [Architecture.run_path_mutation, h, MutResult.state]
  | error e =>
    cases e with
    | mk e s => simp [Architecture.run_path_mutation, h, MutResult.state]

theorem run_path_mutation_inv (a : Architecture) (m : PathMutation) :
    PathInv a (a.run_path_mutation m) := by
  rw [run_path_mutation_eq_state]
  cases m with
  | add name p => exact add_path_inv a name p
  | remove name => exact remove_path_inv a name
  | update name p => exact update_path_inv a name p

theorem run_path_mutations_inv (a : Architecture) (ms : List PathMutation) :
    PathInv a (a.run_path_mutations ms) := by
  induction ms generalizing a with
  | nil => exact pathInv_rfl a
  | cons m ms ih =>
    exact pathInv_comp (run_path_mutation_inv a m) (ih (a.run_path_mutation m))

/-- C1 (amended): `update_path(name, path)` performs its absence check —
the spec's `NotFound`, with the stored named-path collection untouched —
against the NEW path value's OWN name `path.path_name`, not against the
`name` argument; when that removal succeeds, the call's effect is exactly
`remove_path(path.path_name)` followed by `add_path(name, path)`. -/
theorem C1_update_path_remove_then_add (a : Architecture) (n own : String)
    (p : PathStructValue) (hname : p.path_name = some own) :
    (own ∉ a.path_name_list → a.update_path n p = .error (.notFound, a)) ∧
    (∀ a1, a.remove_path own = .ok a1 → a.update_path n p = a1.add_path n p) := by
  constructor
  · intro habs
    have hnot : own ∉ a.path_names := fun hm => habs ((path_names_mem a own).mp hm)
    rw [update_path_eq_some a n p own hname]
    simp [Architecture.remove_path, hnot]
  · intro a1 hrm
    rw [update_path_eq_some a n p own hname, hrm]

/-- C1 witness: updating with a path value whose own name `missing` is
absent fails with `NotFound` and leaves the state unchanged. -/
theorem C1_update_path_remove_then_add_witness :
    archPathOld.update_path "q" ⟨some "missing", []⟩ = .error (.notFound, archPathOld) :=
  (C1_update_path_remove_then_add archPathOld "q" "missing"
      ⟨some "missing", []⟩ (by decide)).1 (by decide)

/-- C1 counterexample: with only `old` stored, `update_path("new", p)`
where `p` itself is named `old` SUCCEEDS (the path ends up stored under
`new`) although `"new"` is not in `path_names` — refuting the claim that
`update_path(n, p)` fails with `NotFound` for every absent first-argument
name `n`. -/
theorem C1_counterexample :
    "new" ∉ archPathOld.path_names ∧
    archPathOld.update_path "new" pvOld =
      .ok ⟨[], [], [], [⟨some "new", []⟩], 10⟩ := by decide

/-- C2 (amended): the named-path CRUD mutations — `add_path`,
`remove_path`, `update_path`, including partially-failing `update_path`
calls — preserve pairwise distinctness of the stored path names and leave
the node and executor collections untouched (so node-name and
executor-name distinctness is preserved under them as well).  The rename
operations are NOT covered: they perform no destination-name duplicate
check (see the counterexample). -/
theorem C2_path_crud_preserves_uniqueness (a : Architecture) (ms : List PathMutation) :
    (a.run_path_mutations ms).nodes = a.nodes ∧
    (a.run_path_mutations ms).executors = a.executors ∧
    (a.path_names.Nodup → (a.run_path_mutations ms).path_names.Nodup) := by
  have h := run_path_mutations_inv a ms
  refine ⟨h.1, h.2.1, fun hd => ?_⟩
  rw [path_names_nodup_iff] at hd ⊢
  exact h.2.2.2 hd

/-- C2 witness: an add followed by a remove keeps the path names
pairwise distinct on a concrete two-path state. -/
theorem C2_path_crud_preserves_uniqueness_witness :
    (archPathsAB.run_path_mutations
      [PathMutation.add "c" ⟨none, []⟩, PathMutation.remove "a"]).path_names.Nodup :=
  (C2_path_crud_preserves_uniqueness archPathsAB
    [PathMutation.add "c" ⟨none, []⟩, PathMutation.remove "a"]).2.2 (by decide)

/-- C2 counterexample: `rename_path` checks no destination name, so
renaming path `a` to the already-used name `b` leaves two stored paths
named `b` — after this mutation the stored path names are NOT pairwise
distinct, refuting the claim for the rename mutations. -/
theorem C2_counterexample :
    archPathsAB.path_names.Nodup ∧
    archPathsAB.rename_path "a" "b" =
      .ok ⟨[], [], [], [⟨some "b", []⟩, ⟨some "b", []⟩], 10⟩ ∧
    ¬ (⟨[], [], [], [⟨some "b", []⟩, ⟨some "b", []⟩], 10⟩ : Architecture).path_names.Nodup := by
  decide

/-- C3 (amended): `node_names` always returns a lexicographically sorted
tuple whose members are exactly the `node_name` values of the owned node
collection, and it is duplicate-free WHENEVER the underlying node names
are pairwise distinct — which every named-path CRUD mutation preserves
(the node collection is untouched).  `rename_node`, however, checks no
destination name and can introduce duplicate node names, after which
`node_names` contains the duplicate (see the counterexample). -/
theorem C3_node_names_sorted_dedup_free (a : Architecture) :
    a.node_names.Sorted strLe ∧
    (∀ s, s ∈ a.node_names ↔ s ∈ a.nodes.map NodeStruct.node_name) ∧
    ((a.nodes.map NodeStruct.node_name).Nodup → a.node_names.Nodup) ∧
    (∀ ms : List PathMutation, (a.run_path_mutations ms).node_names = a.node_names) := by
  refine ⟨sortStr_sorted _, fun s => sortStr_mem _ s,
    fun h => (sortStr_nodup_iff _).mpr h, fun ms => ?_⟩
  unfold Architecture.node_names
  rw [(run_path_mutations_inv a ms).1]

/-- C3 witness: on a concrete two-node state the node names are
duplicate-free. -/
theorem C3_node_names_sorted_dedup_free_witness :
    archNodesAB.node_names.Nodup :=
  (C3_node_names_sorted_dedup_free archNodesAB).2.2.1 (by decide)

/-- C3 counterexample: after `rename_node("a", "b")` on a state already
holding a node named `b`, `node_names` returns `["b", "b"]` — sorted but
NOT duplicate-free, refuting the claim for mutation sequences containing
such a rename. -/
theorem C3_counterexample :
    archNodesAB.node_names.Nodup ∧
    archNodesAB.rename_node "a" "b" =
      .ok ⟨[nodeNamed "b", nodeNamed "b"], [], [], [], 10⟩ ∧
    (⟨[nodeNamed "b", nodeNamed "b"], [], [], [], 10⟩ : Architecture).node_names = ["b", "b"] ∧
    ¬ (⟨[nodeNamed "b", nodeNamed "b"], [], [], [], 10⟩ : Architecture).node_names.Nodup := by
  decide

/-- C4: `add_path` with a name already present fails with
`DuplicateName`, and the returned error state is the input state itself —
every stored path, including the one already under that name, is
untouched (the check precedes any mutation). -/
theorem C4_add_path_duplicate_name (a : Architecture) (n : String) (p : PathStructValue)
    (h : n ∈ a.path_names) :
    a.add_path n p = .error (.duplicateName, a) := by
  unfold Architecture.add_path
  rw [if_pos h]

/-- C4 witness: adding under the already-stored name `old` fails with
`DuplicateName` and the state is unchanged. -/
theorem C4_add_path_duplicate_name_witness :
    archPathOld.add_path "old" ⟨none, []⟩ = .error (.duplicateName, archPathOld) :=
  C4_add_path_duplicate_name archPathOld "old" ⟨none, []⟩ (by decide)

/-- C5: `search_paths` with any unknown waypoint name fails with
`NotFound` before performing any traversal: the result is the error for
EVERY possible searcher (the claim holds uniformly in the abstracted
`NodePathSearcher`, which is never invoked), and the query returns no
mutated state — it only reads the architecture. -/
theorem C5_search_paths_unknown_waypoint (a : Architecture)
    (searcher : Nat → List PathStruct) (names : List String) (depth : Option Nat)
    (n : String) (hmem : n ∈ names) (hunk : n ∉ a.node_names) :
    a.search_paths searcher names depth = .error .notFound := by
  have hall : ¬ (names.all (fun x => decide (x ∈ a.node_names)) = true) := by
    rw [List.all_eq_true]
    intro hcontra
    exact hunk (by simpa using hcontra n hmem)
  unfold Architecture.search_paths
  rw [if_neg hall]

/-- C5 witness: searching for the unknown waypoint `ghost` on a one-node
state fails with `NotFound`. -/
theorem C5_search_paths_unknown_waypoint_witness :
    archOneNode.search_paths (fun _ => []) ["ghost"] none = .error .notFound :=
  C5_search_paths_unknown_waypoint archOneNode (fun _ => []) ["ghost"] none "ghost"
    (by decide) (by decide)

/-- C10: `max_node_depth = max_node_depth or default_depth` treats both
`None` and `0` as falsy, so with either argument the search is delegated
at the default depth 15, not at depth 0. -/
theorem C10_search_paths_falsy_depth_uses_default (a : Architecture)
    (searcher : Nat → List PathStruct) (names : List String)
    (h : ∀ n ∈ names, n ∈ a.node_names) :
    a.search_paths searcher names none = .ok (searcher 15) ∧
    a.search_paths searcher names (some 0) = .ok (searcher 15) := by
  have hall : names.all (fun x => decide (x ∈ a.node_names)) = true := by
    rw [List.all_eq_true]
    intro x hx
    simpa using h x hx
  constructor
  · unfold Architecture.search_paths
    rw [if_pos hall]
  · unfold Architecture.search_paths
    rw [if_pos hall]
    rfl

/-- C10 witness: with a depth-revealing searcher, both `None` and `0`
yield the result of searching at depth 15. -/
theorem C10_search_paths_falsy_depth_uses_default_witness :
    archOneNode.search_paths (fun d => List.replicate d ⟨none, []⟩) ["n"] (some 0) =
      .ok (List.replicate 15 ⟨none, []⟩) ∧
    archOneNode.search_paths (fun d => List.replicate d ⟨none, []⟩) ["n"] none =
      .ok (List.replicate 15 ⟨none, []⟩) :=
  ⟨(C10_search_paths_falsy_depth_uses_default archOneNode
      (fun d => List.replicate d ⟨none, []⟩) ["n"] (by decide)).2,
   (C10_search_paths_falsy_depth_uses_default archOneNode
      (fun d => List.replicate d ⟨none, []⟩) ["n"] (by decide)).1⟩

/-- C8: `diff_topic_names(A, B)` and `diff_topic_names(B, A)` return the
same two sets in swapped order; each side is, as a set, the topic names
of one architecture minus the other's. -/
theorem C8_diff_topic_names_swap (A B : Architecture) (x : String) :
    (x ∈ (Architecture.diff_topic_names A B).1 ↔
       x ∈ (Architecture.diff_topic_names B A).2) ∧
    (x ∈ (Architecture.diff_topic_names A B).2 ↔
       x ∈ (Architecture.diff_topic_names B A).1) ∧
    (x ∈ (Architecture.diff_topic_names A B).1 ↔
       x ∈ A.topic_names ∧ x ∉ B.topic_names) := by
  refine ⟨Iff.rfl, Iff.rfl, ?_⟩
  simp [Architecture.diff_topic_names, List.mem_filter]

/-- C7: `remove_callback_chain` keeps exactly the records whose full key
(sub topic, sub order, pub topic, pub order, context type) differs from
the target with `context_type == 'callback_chain'`; every record of
another context type — even at the same topic pair — is preserved with
its multiplicity. -/
theorem C7_remove_callback_chain_exact_key (cu : ContextUpdater) (subT : String)
    (subO : Nat) (pubT : String) (pubO : Nat) (c : MessageContextDict) :
    (c ∈ (cu.remove_callback_chain subT subO pubT pubO).contexts ↔
       c ∈ cu.contexts ∧
       contextFullKey c ≠ (subT, subO, pubT, pubO, "callback_chain")) ∧
    (c.context_type ≠ "callback_chain" →
       (cu.remove_callback_chain subT subO pubT pubO).contexts.count c =
         cu.contexts.count c) := by
  constructor
  · simp [ContextUpdater.remove_callback_chain, List.mem_filter]
  · intro hct
    have hkey : decide
        (contextFullKey c ≠ (subT, subO, pubT, pubO, "callback_chain")) = true := by
      simp only [decide_eq_true_eq]
      intro he
      apply hct
      have h5 := congrArg (fun t : String × Nat × String × Nat × String => t.2.2.2.2) he
      simpa [contextFullKey] using h5
    simp only [ContextUpdater.remove_callback_chain]
    exact List.count_filter hkey

/-- C7 witness: with a `callback_chain` record and an
`inherit_unique_stamp` record on the same topic pair and orders, removal
deletes exactly the former and keeps the latter with its count. -/
theorem C7_remove_callback_chain_exact_key_witness :
    (cuBoth.remove_callback_chain "s" 0 "p" 0).contexts = [ctxOther] ∧
    (cuBoth.remove_callback_chain "s" 0 "p" 0).contexts.count ctxOther =
      cuBoth.contexts.count ctxOther :=
  ⟨by decide,
   (C7_remove_callback_chain_exact_key cuBoth "s" 0 "p" 0 ctxOther).2 (by decide)⟩

/-- C6 (amended): for an existing node, `update_message_context` with a
(sub topic, pub topic) pair matched by no working context record and no
node path is a silent no-op on the message contexts — PROVIDED the
subscribe topic is among the node's subscribe topic names and the publish
topic among its publish topic names, because the method raises the
spec's `NotFound` for a topic outside the node's own topic sets before
the `ContextUpdater` runs (see the counterexample).  Under the proviso no
error is raised, the working context set is unchanged, and the only state
change is the node's paths being atomically replaced by the external
path-derivation primitive applied to that UNCHANGED context set. -/
theorem C6_update_message_context_checked_noop
    (f : NodeStruct → List MessageContextDict → Nat → List NodePathStruct)
    (a : Architecture) (nm ct subT pubT : String) (node : NodeStruct)
    (hfind : find_one (fun x => decide (x.node_name = nm)) a.nodes = .ok node)
    (hpub : pubT ∈ node.publish_topic_names)
    (hsub : subT ∈ node.subscribe_topic_names)
    (hctx : ∀ c ∈ (ContextUpdater.init node).contexts,
       ¬(c.subscription_topic_name = subT ∧ c.publisher_topic_name = pubT))
    (hpath : ∀ p ∈ node.paths,
       ¬(p.subscribe_topic_name = some subT ∧ p.publish_topic_name = some pubT)) :
    ((ContextUpdater.init node).update_message_context ct subT pubT).contexts =
      (ContextUpdater.init node).contexts ∧
    Architecture.update_message_context f a nm ct subT pubT =
      .ok (a.update_node_path nm
        (f node (ContextUpdater.init node).contexts a.max_cb_order)) := by
  have hfg : (ContextUpdater.init node).contexts.map
      (fun c => if c.subscription_topic_name = subT ∧ c.publisher_topic_name = pubT
                then { c with context_type := ct } else c) =
      (ContextUpdater.init node).contexts.map id :=
    List.map_congr_left (fun c hc => if_neg (hctx c hc))
  have happ : ((ContextUpdater.init node).node.paths.filter fun p => decide
      (p.message_context = none ∧ p.subscribe_topic_name = some subT ∧
       p.publish_topic_name = some pubT)) = [] := by
    rw [List.filter_eq_nil_iff]
    intro p hp hdec
    have h3 := of_decide_eq_true hdec
    exact hpath p hp ⟨h3.2.1, h3.2.2⟩
  have h1 : ((ContextUpdater.init node).update_message_context ct subT pubT).contexts =
      (ContextUpdater.init node).contexts := by
    simp only [ContextUpdater.update_message_context]
    rw [hfg, List.map_id, happ]
    simp
  refine ⟨h1, ?_⟩
  unfold Architecture.update_message_context
  rw [hfind]
  simp only [if_pos hpub, if_pos hsub]
  simp [ContextUpdater.get_message_contexts, h1]

/-- C6 witness: on the node `m` (publishes `p`, subscribes to `s`, no
paths, no contexts) the call raises nothing, changes no context, and the
state is unchanged (the recomputation with the empty context set yields
the node's empty path set again). -/
theorem C6_update_message_context_checked_noop_witness :
    ((ContextUpdater.init nodePubSub).update_message_context "ct" "s" "p").contexts =
      (ContextUpdater.init nodePubSub).contexts ∧
    Architecture.update_message_context (fun _ _ _ => []) archPubSub "m" "ct" "s" "p" =
      .ok archPubSub := by
  have h := C6_update_message_context_checked_noop (fun _ _ _ => []) archPubSub
    "m" "ct" "s" "p" nodePubSub (by decide) (by decide) (by decide)
    (by decide) (by decide)
  refine ⟨h.1, ?_⟩
  rw [h.2]
  decide

/-- C6 counterexample: the node `n` exists, no message context matches
`("s", "p")` and no node path carries that pair — the claim's conditions
— yet the call raises the spec's `NotFound` (because `s` is not a
subscribe topic of the node) instead of being a silent no-op, refuting
the claim as stated. -/
theorem C6_counterexample :
    nodePubOnly ∈ archPubOnly.nodes ∧
    (ContextUpdater.init nodePubOnly).contexts = [] ∧
    nodePubOnly.paths = [] ∧
    Architecture.update_message_context (fun _ _ _ => []) archPubOnly "n" "ct" "s" "p" =
      .error (.notFound, archPubOnly) := by
  decide

theorem count_le_flatten {α : Type} [DecidableEq α] (c : α) (L : List (List α)) (l : List α)
    (h : l ∈ L) : l.count c ≤ L.flatten.count c := by
  induction L with
  | nil => cases h
  | cons x xs ih =>
    rw [List.flatten_cons, List.count_append]
    rcases List.mem_cons.mp h with h1 | h1
    · rw [h1]; exact Nat.le_add_right _ _
    · exact Nat.le_trans (ih h1) (Nat.le_add_left _ _)

/-- C9: the construction-time integrity check never raises — construction
always succeeds on any node collection, returning the stored state —
every callback identity key (type, type-specific parameter, symbol,
construction order) shared by two or more callbacks of one node appears
as a logged warning (modelled as the returned diagnostic list), and every
callback of every callback group remains exposed through the `callbacks`
accessor with its full multiplicity. -/
theorem C9_verify_warns_never_raises (nodes : List NodeStruct)
    (comms : List CommunicationStruct) (execs : List ExecutorStruct)
    (paths : List PathStruct) (limit : Nat) :
    Architecture.construct nodes comms execs paths limit =
      .ok ⟨nodes, comms, execs, paths, limit⟩ ∧
    (∀ c : CallbackStruct, ∀ n ∈ nodes, ∀ gs, n.callback_groups = some gs →
       ∀ g ∈ gs, g.callbacks.count c ≤
         (Architecture.mk nodes comms execs paths limit).callbacks.count c) ∧
    (∀ n ∈ nodes, ∀ cbs, n.callbacks = some cbs →
       ∀ k, 2 ≤ (cbs.map callbackIdentityKey).count k →
         (⟨n.node_name, k.1, k.2.1⟩ : VerifyWarning) ∈
           (nodes.map NodeStruct.verify_warnings).flatten) := by
  refine ⟨rfl, ?_, ?_⟩
  · intro c n hn gs hgs g hg
    have hg2 : g ∈ (Architecture.mk nodes comms execs paths limit).callback_groups := by
      unfold Architecture.callback_groups
      rw [List.mem_flatten]
      refine ⟨gs, ?_, hg⟩
      have : gs = n.callback_groups.getD [] := by rw [hgs]; rfl
      rw [this]
      exact List.mem_map_of_mem _ hn
    unfold Architecture.callbacks
    refine count_le_flatten c _ g.callbacks ?_
    exact List.mem_map_of_mem _ hg2
  · intro n hn cbs hcbs k hk
    rw [List.mem_flatten]
    refine ⟨n.verify_warnings, List.mem_map_of_mem _ hn, ?_⟩
    unfold NodeStruct.verify_warnings
    rw [hcbs]
    have hmem : k ∈ (cbs.map callbackIdentityKey).dedup := by
      rw [List.mem_dedup]
      exact List.count_pos_iff.mp (by omega)
    have hfil : k ∈ (cbs.map callbackIdentityKey).dedup.filter
        (fun x => decide (2 ≤ (cbs.map callbackIdentityKey).count x)) := by
      rw [List.mem_filter]
      exact ⟨hmem, by simpa using hk⟩
    exact List.mem_map_of_mem _ hfil

/-- C9 witness: the spec's §8 scenario — one node owning two timer
callbacks with identical period, symbol and construction order —
constructs without error, the duplicate-key warning is emitted, and both
callbacks stay visible through the `callbacks` accessor. -/
theorem C9_verify_warns_never_raises_witness :
    Architecture.construct [nodeDupTimers] [] [] [] 10 =
      .ok ⟨[nodeDupTimers], [], [], [], 10⟩ ∧
    2 ≤ (Architecture.mk [nodeDupTimers] [] [] [] 10).callbacks.count timerCb ∧
    (⟨"dup", "timer_callback", CbParam.ofNat 100⟩ : VerifyWarning) ∈
      ([nodeDupTimers].map NodeStruct.verify_warnings).flatten := by
  have h := C9_verify_warns_never_raises [nodeDupTimers] [] [] [] 10
  refine ⟨h.1, ?_, ?_⟩
  · have h2 := h.2.1 timerCb nodeDupTimers (by decide) [⟨"cbg", [timerCb, timerCb]⟩]
      (by decide) ⟨"cbg", [timerCb, timerCb]⟩ (by decide)
    exact Nat.le_trans (by decide) h2
  · exact h.2.2 nodeDupTimers (by decide) [timerCb, timerCb] (by decide)
      ("timer_callback", CbParam.ofNat 100, "sym", 0) (by decide)
